import Mathlib

/-!
# Verification of the salsa-milk batch-processing and web-task core

Shallow embedding of the orchestration logic of the salsa-milk repository:

* `SalsaMilk.Core` models `src/salsa_milk_core.py` (`process_files`: the
  per-file pipeline normalize → separate → remux, progress emission, the
  percentage scraping of the separation tool's diagnostic stream, and
  per-file failure isolation).
* `SalsaMilk.Legacy` models `src/salsa-milk.py` (the legacy CLI's
  `process_files` exception handling and `main`'s input classification).
* `SalsaMilk.Webapp` models `src/webapp.py` (the mutex-guarded task
  registry, `api_progress`, `api_download`, the background run and
  `finalize_task`).

External subprocesses and the filesystem are modelled by explicit
behaviour records (`FileBehavior`) describing what each external call
does; Python floats are modelled by exact rationals `ℚ`; a raised Python
exception is modelled by an explicit outcome constructor.
-/

namespace SalsaMilk

/-- One input media path, split as directory / stem / suffix, mirroring
Python's `Path.parent`, `Path.stem` and `Path.suffix`. -/
structure InputFile where
  dir : String
  stem : String
  ext : String
deriving DecidableEq

/-- Python's `str.lower()` (ASCII case folding, structurally recursive so
that concrete strings evaluate inside the kernel). -/
def strToLower (s : String) : String := ⟨s.data.map Char.toLower⟩

/-- `Path.name`: the stem together with the suffix. -/
def InputFile.name (f : InputFile) : String := f.stem ++ f.ext

/-- `str(file_path)`: the full path string. -/
def InputFile.full (f : InputFile) : String := f.dir ++ "/" ++ f.stem ++ f.ext

/-- The video-suffix set of `salsa_milk_core.py` line 64. -/
def videoExts : List String := [".mp4", ".mov", ".avi", ".mkv", ".webm"]

/-- `has_video = file_path.suffix.lower() in {...}`. -/
def InputFile.hasVideo (f : InputFile) : Bool := videoExts.contains (strToLower f.ext)

/-- Outcome of one external process invocation made with
`subprocess.run(check=True)` (or `Popen` + explicit nonzero check):
it returns normally, raises `subprocess.CalledProcessError`, or raises
some other (unexpected) exception such as `OSError`. -/
inductive RunOutcome
  | success
  | calledProcessError
  | unexpected (msg : String)
deriving DecidableEq

/-- A Python exception escaping a statement. -/
inductive PyExc
  | calledProcessError
  | other (msg : String)
deriving DecidableEq

/-- One invocation of the progress callback: `(stage, fraction, message)`. -/
structure Event where
  stage : String
  fraction : ℚ
  message : Option String
deriving DecidableEq

/-- One entry of the result list of `process_files`:
`{"input": ..., "output": ..., "id": ...}`. -/
structure ResultEntry where
  input : String
  output : String
  id : String
deriving DecidableEq

namespace Core

/-- `max(0.0, min(1.0, x))` from `emit` (`salsa_milk_core.py` line 74). -/
def clamp01 (q : ℚ) : ℚ := max 0 (min 1 q)

/-- The inner `emit` closure of `process_files`: the overall fraction
handed to the progress callback, for a file starting at `start` with
per-file share `span` and stage fraction `frac`. -/
def emitFraction (start span frac : ℚ) : ℚ := clamp01 (start + span * frac)

/-- Numeric value of a digit string (the regex group handed to `int`). -/
def digitsToNat (ds : List Char) : Nat :=
  ds.foldl (fun acc c => 10 * acc + (c.toNat - 48)) 0

/-- Try to match exactly `len` digits followed by a literal `'%'` at the
head of `cs`, returning the numeric value of the digits. -/
def matchPercentLen (cs : List Char) (len : Nat) : Option Nat :=
  let ds := cs.take len
  if ds.length == len && ds.all Char.isDigit && ((cs.drop len).head? == some '%')
  then some (digitsToNat ds) else none

/-- Greedy match of `(\d{1,3})%` anchored at the head of `cs`: three
digits are preferred, then two, then one (regex backtracking). -/
def matchPercentAt (cs : List Char) : Option Nat :=
  ((matchPercentLen cs 3).orElse fun _ =>
    (matchPercentLen cs 2).orElse fun _ => matchPercentLen cs 1)

/-- `re.search(r"(\d{1,3})%", raw_line)`: leftmost match of one to three
digits followed by `'%'`, returning the parsed group. -/
def searchPercent : List Char → Option Nat
  | [] => none
  | c :: rest =>
    match matchPercentAt (c :: rest) with
    | some n => some n
    | none => searchPercent rest

/-- `0.22 + 0.6 * (percent / 100)` with `percent = min(parsed, 100)`
(`salsa_milk_core.py` lines 128–129). -/
def demucsFraction (p : Nat) : ℚ := 0.22 + 0.6 * ((min p 100 : ℚ) / 100)

/-- A pending call of the inner `emit` closure: the stage label, the raw
stage fraction passed as `emit`'s second argument, and the message. -/
structure RawEvent where
  stage : String
  frac : ℚ
  message : String
deriving DecidableEq

/-- The `emit` calls produced while reading the separation tool's
diagnostic stream line by line (`salsa_milk_core.py` lines 120–134):
reading stops at the `""` sentinel; each line whose text matches
`(\d{1,3})%` yields one `demucs` emission. -/
def demucsStreamRaw (fileName : String) (lines : List String) : List RawEvent :=
  (lines.takeWhile (fun l => !(l == ""))).filterMap fun line =>
    match searchPercent line.data with
    | some n =>
      some ⟨"demucs", demucsFraction n,
        "Demucs " ++ toString (min n 100) ++ "% for " ++ fileName⟩
    | none => none

/-- The audio-extension allow-list (`salsa_milk_core.py` line 181). -/
def allowedExts : List String := ["mp3", "wav", "ogg", "m4a", "aac", "opus"]

/-- Python's `str.lstrip(".")`: drop every leading dot. -/
def lstripDots (s : String) : String := ⟨s.data.dropWhile (fun c => c = '.')⟩

/-- Codec selection for audio outputs (`salsa_milk_core.py` lines 185–191):
`copy` unless the output extension picks a specific encoder. -/
def audioCodec (outputExt : String) : String :=
  if outputExt = "mp3" then "libmp3lame"
  else if outputExt = "aac" ∨ outputExt = "m4a" then "aac"
  else if outputExt = "ogg" ∨ outputExt = "opus" then "libopus"
  else "copy"

/-- Output extension and remux codec chosen from the input file
(`salsa_milk_core.py` lines 156–191): video inputs always become `mp4`
re-encoded with `aac`; audio inputs keep their (lowercased, dot-stripped)
extension when it is in the allow-list, else default to `wav`. -/
def outputChoice (f : InputFile) : String × String :=
  if f.hasVideo then ("mp4", "aac")
  else
    let originalExt := lstripDots (strToLower f.ext)
    let outputExt := if allowedExts.contains originalExt then originalExt else "wav"
    (outputExt, audioCodec outputExt)

/-- Behaviour of the external world for one file of the batch: what each
subprocess invocation of the per-file pipeline does, which diagnostic
lines the separation tool prints, and where the separated vocals appear
on disk. -/
structure FileBehavior where
  file : InputFile
  /-- Outcome of `subprocess.run(ffmpeg_convert_cmd, check=True)`. -/
  convert : RunOutcome
  /-- `some msg` when `subprocess.Popen(demucs_cmd, ...)` itself raises an
  unexpected exception `msg`; `none` when the child process starts. -/
  demucsSpawn : Option String
  /-- Lines delivered by `demucs_stderr.readline` (the stream ends at the
  first `""`). -/
  demucsLines : List String
  /-- `demucs_proc.wait()`. -/
  demucsExit : Nat
  /-- Whether `<demucs_root>/<model>/<file_id>/vocals.wav` exists. -/
  expectedVocalsExists : Bool
  /-- `glob.glob(str(demucs_root / "*" / file_id / "vocals.wav"))`. -/
  altVocals : List String
  /-- Outcome of `subprocess.run(ffmpeg_cmd, check=True)` (the remux). -/
  mux : RunOutcome
deriving DecidableEq

/-- `true` when none of the file's external interactions raises an
exception other than `CalledProcessError`. -/
def FileBehavior.noUnexpected (b : FileBehavior) : Bool :=
  (match b.convert with | .unexpected _ => false | _ => true) &&
  b.demucsSpawn.isNone &&
  (match b.mux with | .unexpected _ => false | _ => true)

/-- Result of running the body of the per-file loop of `process_files`
(`salsa_milk_core.py` lines 61–225) on one file. -/
structure FileOutcome where
  /-- The `emit` calls made for this file, in order, with the raw stage
  fraction passed as `emit`'s second argument. -/
  raws : List RawEvent
  /-- The entry appended to `results`, when the file succeeded. -/
  result : Option ResultEntry
  /-- `some exc` when an exception escapes the per-file
  `try`/`except subprocess.CalledProcessError` handler. -/
  escaped : Option PyExc
  /-- Number of external process invocations attempted. -/
  procs : Nat
  /-- The `vocals_path` handed to the remux command, when reached. -/
  vocalsUsed : Option String
deriving DecidableEq

/-- The body of the per-file loop of `process_files`, with the calls of
the inner `emit` closure recorded as raw `(stage, fraction, message)`
triples.  `span` is `per_file_span = 1.0 / len(path_inputs)`; the
`except subprocess.CalledProcessError` handler turns a nonzero-exit
failure into a logged error emission, while any other exception escapes. -/
def processFileRaw (temp_dir output_dir model : String) (span : ℚ)
    (b : FileBehavior) : FileOutcome :=
  let f := b.file
  let fileId := f.stem
  let fileName := f.name
  let prepare : RawEvent := ⟨"prepare", 0.02, "Preparing " ++ fileName⟩
  let errorEv : RawEvent := ⟨"error", span, "Processing failed for " ++ fileName⟩
  match b.convert with
  | .calledProcessError => ⟨[prepare, errorEv], none, none, 1, none⟩
  | .unexpected msg => ⟨[prepare], none, some (.other msg), 1, none⟩
  | .success =>
    let convertEv : RawEvent := ⟨"convert", 0.18, "Converted " ++ fileName ++ " to WAV"⟩
    let demucsStart : RawEvent := ⟨"demucs", 0.22, "Starting Demucs for " ++ fileName⟩
    match b.demucsSpawn with
    | some msg => ⟨[prepare, convertEv, demucsStart], none, some (.other msg), 2, none⟩
    | none =>
      let streamEvs := demucsStreamRaw fileName b.demucsLines
      let pre := [prepare, convertEv, demucsStart] ++ streamEvs
      if b.demucsExit ≠ 0 then
        ⟨pre ++ [errorEv], none, none, 2, none⟩
      else
        let demucsDone : RawEvent := ⟨"demucs", 0.82, "Demucs complete for " ++ fileName⟩
        let expectedVocals :=
          temp_dir ++ "/demucs/" ++ model ++ "/" ++ fileId ++ "/vocals.wav"
        let vocals? : Option String :=
          if b.expectedVocalsExists then some expectedVocals else b.altVocals.head?
        match vocals? with
        | none => ⟨pre ++ [demucsDone], none, none, 2, none⟩
        | some vocalsPath =>
          let outputExt := (outputChoice f).1
          let outputPath := output_dir ++ "/" ++ fileId ++ "_vocals." ++ outputExt
          match b.mux with
          | .calledProcessError =>
            ⟨pre ++ [demucsDone, errorEv], none, none, 3, some vocalsPath⟩
          | .unexpected msg =>
            ⟨pre ++ [demucsDone], none, some (.other msg), 3, some vocalsPath⟩
          | .success =>
            ⟨pre ++ [demucsDone,
               ⟨"mux", 0.95, "Writing output for " ++ fileName⟩,
               ⟨"file_complete", 1.0, "Finished " ++ fileName⟩],
             some ⟨f.full, outputPath, fileId⟩, none, 3, some vocalsPath⟩

/-- The events actually delivered to the progress callback for one file:
each recorded `emit` call mapped through the bounded-fraction arithmetic
of the inner `emit` closure. -/
def fileEvents (temp_dir output_dir model : String) (n index : Nat)
    (b : FileBehavior) : List Event :=
  let start : ℚ := (index : ℚ) / (n : ℚ)
  let span : ℚ := 1 / (n : ℚ)
  (processFileRaw temp_dir output_dir model span b).raws.map
    fun r => ⟨r.stage, emitFraction start span r.frac, some r.message⟩

/-- Outcome of a whole `process_files` call: the returned result list, or
the exception that propagated out of the batch loop. -/
inductive BatchOutcome
  | ok (results : List ResultEntry)
  | raised (exc : PyExc)
deriving DecidableEq

/-- A full run of `process_files`: the progress-callback invocations, the
return value or escaped exception, the directories created up front, and
the number of external processes attempted. -/
structure BatchRun where
  events : List Event
  outcome : BatchOutcome
  dirsCreated : List String
  procs : Nat
deriving DecidableEq

/-- The `for index, file_path in enumerate(...)` loop of `process_files`,
over the suffix of the batch starting at position `index` of `n` files. -/
def processFilesGo (temp_dir output_dir model : String) (n : Nat) :
    Nat → List FileBehavior → List Event × BatchOutcome × Nat
  | _, [] => ([], .ok [], 0)
  | index, b :: rest =>
    let o := processFileRaw temp_dir output_dir model (1 / (n : ℚ)) b
    let evs := fileEvents temp_dir output_dir model n index b
    match o.escaped with
    | some e => (evs, .raised e, o.procs)
    | none =>
      match processFilesGo temp_dir output_dir model n (index + 1) rest with
      | (evs', .ok results, procs') =>
        (evs ++ evs', .ok (o.result.toList ++ results), o.procs + procs')
      | (evs', .raised e, procs') =>
        (evs ++ evs', .raised e, o.procs + procs')

/-- `process_files` (`salsa_milk_core.py` lines 27–230): an empty input
list returns immediately with no side effect; otherwise the temp and
output directories are created, each file is processed in order, and —
when no exception propagates — a final `complete` event at fraction 1.0
is emitted and the accumulated results are returned.  (`enable_progress`
only wraps the iteration in a textual progress bar and is not modelled.) -/
def process_files (input_files : List FileBehavior) (model : String)
    (temp_dir output_dir : String) : BatchRun :=
  if input_files.isEmpty then ⟨[], .ok [], [], 0⟩
  else
    let dirs := [temp_dir ++ "/audio", temp_dir ++ "/demucs", output_dir]
    match processFilesGo temp_dir output_dir model input_files.length 0 input_files with
    | (evs, .ok results, procs) =>
      ⟨evs ++ [⟨"complete", 1.0, some "All files processed."⟩], .ok results, dirs, procs⟩
    | (evs, .raised e, procs) => ⟨evs, .raised e, dirs, procs⟩

end Core

namespace Legacy

/-- Behaviour of the external world for one file of the legacy CLI's
batch (`src/salsa-milk.py` lines 89–214): that version runs the
separation tool with a blocking `subprocess.run` and reads no diagnostic
stream. -/
structure FileBehavior where
  file : InputFile
  convert : RunOutcome
  demucs : RunOutcome
  expectedVocalsExists : Bool
  altVocals : List String
  mux : RunOutcome
deriving DecidableEq

/-- The audio-extension allow-list of the legacy CLI
(`salsa-milk.py` line 171). -/
def allowedExts : List String := ["mp3", "wav", "ogg", "m4a"]

/-- The body of the legacy per-file loop: the `try` block is guarded by
both `except subprocess.CalledProcessError` and `except Exception`, so
every failure — nonzero exit or unexpected exception — is logged and
yields no result, and nothing escapes. -/
def processFile (model : String) (b : FileBehavior) : Option ResultEntry :=
  match b.convert with
  | .calledProcessError => none
  | .unexpected _ => none
  | .success =>
    match b.demucs with
    | .calledProcessError => none
    | .unexpected _ => none
    | .success =>
      let fileId := b.file.stem
      let vocals? : Option String :=
        if b.expectedVocalsExists
        then some ("/tmp/demucs/" ++ model ++ "/" ++ fileId ++ "/vocals.wav")
        else b.altVocals.head?
      match vocals? with
      | none => none
      | some _ =>
        match b.mux with
        | .calledProcessError => none
        | .unexpected _ => none
        | .success =>
          let outputExt :=
            if b.file.hasVideo then "mp4"
            else
              let originalExt := Core.lstripDots (strToLower b.file.ext)
              if allowedExts.contains originalExt then originalExt else "wav"
          some ⟨b.file.full, "/output/" ++ fileId ++ "_vocals." ++ outputExt, fileId⟩

/-- `process_files` of the legacy CLI: iterates the batch, appending one
result per successful file; by construction it never raises. -/
def process_files (model : String) (input_files : List FileBehavior) :
    List ResultEntry :=
  input_files.filterMap (processFile model)

/-- `s.startswith(p)` on strings (structurally recursive). -/
def strStartsWith (s p : String) : Bool := s.data.take p.data.length == p.data

/-- The input partition of `main` (`salsa-milk.py` lines 231–236): a
string is a remote target exactly when it starts with a recognized URI
scheme. -/
def isRemote (s : String) : Bool :=
  strStartsWith s "http://" || strStartsWith s "https://"

/-- `main`'s classification loop: each input is appended either to the
YouTube-URL list or to the local-file list, verbatim — the filesystem is
never consulted and the path string is passed through unchanged. -/
def classifyInputs : List String → List String × List String
  | [] => ([], [])
  | x :: rest =>
    let (ys, ls) := classifyInputs rest
    if isRemote x then (x :: ys, ls) else (ys, x :: ls)

end Legacy

namespace Webapp

/-- Index of the last `'.'` in a character list, if any. -/
def lastDotIdx : List Char → Option Nat
  | [] => none
  | c :: rest =>
    match lastDotIdx rest with
    | some i => some (i + 1)
    | none => if c = '.' then some 0 else none

/-- `Path.name` on a path string: the component after the last `/`. -/
def pathName (p : String) : String := (p.splitOn "/").getLastD p

/-- `Path.stem`: the name without its suffix (a suffix needs a dot that
is neither the first nor the last character of the name). -/
def pathStem (p : String) : String :=
  let nm := pathName p
  let cs := nm.data
  match lastDotIdx cs with
  | some i => if 0 < i ∧ i + 1 < cs.length then ⟨cs.take i⟩ else nm
  | none => nm

/-- `Path.suffix`: the extension, dot included, or `""`. -/
def pathSuffix (p : String) : String :=
  let nm := pathName p
  let cs := nm.data
  match lastDotIdx cs with
  | some i => if 0 < i ∧ i + 1 < cs.length then ⟨cs.drop i⟩ else ""
  | none => ""

/-- The mutable `ProcessingTask` record of `webapp.py` (fields that carry
behaviour; `created_at` is wall-clock time and not modelled). -/
structure TaskState where
  id : String
  workDir : String
  /-- `saved_path.name` — the uploaded file's name. -/
  savedName : String
  model : String
  status : String
  progress : ℚ
  message : String
  outputPath : Option String
  downloadName : Option String
  error : Option String
deriving DecidableEq

/-- The `_TASKS` dictionary: an association list with unique keys. -/
abbrev Registry := List (String × TaskState)

/-- `_TASKS.get(task_id)`. -/
def lookupTask (reg : Registry) (tid : String) : Option TaskState :=
  match reg.find? (fun p => p.1 = tid) with
  | some p => some p.2
  | none => none

/-- Removal of the binding for `tid` (the effect of `_TASKS.pop`). -/
def removeTask (reg : Registry) (tid : String) : Registry :=
  reg.filter (fun p => p.1 ≠ tid)

/-- The task created by `api_process` before the worker thread starts. -/
def initTask (tid workDir savedName model : String) : TaskState :=
  { id := tid, workDir := workDir, savedName := savedName, model := model,
    status := "queued", progress := 5,
    message := "Upload complete. Preparing to process...",
    outputPath := none, downloadName := none, error := none }

/-- `_default_message` of `webapp.py`. -/
def default_message (stage fileName : String) : String :=
  if stage = "prepare" then "Preparing " ++ fileName ++ "..."
  else if stage = "convert" then "Converting " ++ fileName ++ "..."
  else if stage = "demucs" then "Running Demucs on " ++ fileName ++ "..."
  else if stage = "mux" then "Writing " ++ fileName ++ "..."
  else if stage = "file_complete" then "Completed " ++ fileName ++ "."
  else "Processing..."

/-- Python's `x or y` on an optional string (`None` and `""` are falsy). -/
def orDefault (m : Option String) (d : String) : String :=
  match m with
  | some s => if s.isEmpty then d else s
  | none => d

/-- The `update` progress bridge of `_run_task`: marks the task running,
raises the stored percentage monotonically to `max(current, fraction*100)`
and refreshes the message. -/
def applyUpdate (t : TaskState) (e : Event) : TaskState :=
  { t with status := "running",
           progress := max t.progress (e.fraction * 100),
           message := orDefault e.message (default_message e.stage t.savedName) }

/-- How the call to `process_files` inside `_run_task` ends: it raises,
or it returns a (possibly empty) result list. -/
inductive RunResult
  | raised (msg : String)
  | returned (results : List ResultEntry)
deriving DecidableEq

/-- The terminal update of `_run_task` after `process_files` comes back:
an exception or an empty result list turns the task into an error state;
otherwise the first result's output path is published and the task is
completed at 100%. -/
def finishTask (t : TaskState) (r : RunResult) : TaskState :=
  match r with
  | .raised msg =>
    { t with status := "error",
             message := "Processing failed. Please try again.",
             error := some msg }
  | .returned [] =>
    { t with status := "error",
             message := "No output was produced. Please try a different file.",
             error := some "no_output" }
  | .returned (r0 :: _) =>
    { t with status := "completed", progress := 100,
             message := "Demucs separation complete! Preparing download...",
             outputPath := some r0.output,
             downloadName := some (pathStem t.savedName ++ "_vocals" ++ pathSuffix r0.output) }

/-- A whole `_run_task` execution: the progress updates delivered by
`process_files`, then exactly one terminal transition. -/
def run_task (t : TaskState) (updates : List Event) (r : RunResult) : TaskState :=
  finishTask (updates.foldl applyUpdate t) r

/-- The task states observable through the registry: the worker thread
applies updates strictly before the single terminal transition, so a
snapshot is either a (possibly empty) prefix of updates applied to the
initial state, or a finished state. -/
inductive ReachableTask : TaskState → Prop
  | mid (tid workDir savedName model : String) (updates : List Event) :
      ReachableTask (updates.foldl applyUpdate (initTask tid workDir savedName model))
  | finished (tid workDir savedName model : String) (updates : List Event) (r : RunResult) :
      ReachableTask (run_task (initTask tid workDir savedName model) updates r)

/-- `round(x, 2)` on the stored percentage. -/
def round2 (q : ℚ) : ℚ := ((round (q * 100) : ℤ) : ℚ) / 100

/-- Response of `GET /api/progress/<task_id>`. -/
inductive ProgressResponse
  | notFound
  | ok (status : String) (progress : ℚ) (message : String)
       (error : Option String) (downloadReady : Bool)
deriving DecidableEq

/-- `api_progress` (`webapp.py` lines 195–221): an unknown identifier is
a 404; otherwise a snapshot of the task is returned, with
`download_ready = bool(task.output_path and task.status == "completed")`. -/
def api_progress (reg : Registry) (tid : String) : ProgressResponse :=
  match lookupTask reg tid with
  | none => .notFound
  | some t =>
    .ok t.status (round2 t.progress) t.message t.error
      (t.outputPath.isSome && (t.status == "completed"))

/-- Response of `GET /api/download/<task_id>`. -/
inductive DownloadResponse
  | notFound
  | file (path : String) (downloadName : String)
deriving DecidableEq

/-- A download request together with its stream-close cleanup effects. -/
structure DownloadResult where
  response : DownloadResponse
  registryAfterClose : Registry
  removedWorkDirs : List String
deriving DecidableEq

/-- `_finalize_task`: pop the task from the registry and delete its
working directory (a no-op for an unknown identifier). -/
def finalize_task (reg : Registry) (tid : String) : Registry × List String :=
  match lookupTask reg tid with
  | none => (reg, [])
  | some t => (removeTask reg tid, [t.workDir])

/-- `download_name or task.output_path.name`. -/
def downloadNameFor (t : TaskState) (outputPath : String) : String :=
  orDefault t.downloadName (pathName outputPath)

/-- `api_download` (`webapp.py` lines 223–255): a 404 unless the task
exists, has a published output path, and that file exists on disk;
otherwise the file is streamed and, when the stream closes,
`_finalize_task` removes the task and deletes its working directory. -/
def api_download (reg : Registry) (fsExists : String → Bool) (tid : String) :
    DownloadResult :=
  match lookupTask reg tid with
  | none => ⟨.notFound, reg, []⟩
  | some t =>
    match t.outputPath with
    | none => ⟨.notFound, reg, []⟩
    | some p =>
      if fsExists p then
        let cleanup := finalize_task reg tid
        ⟨.file p (downloadNameFor t p), cleanup.1, cleanup.2⟩
      else ⟨.notFound, reg, []⟩

end Webapp

/-! ## Concrete instances used by counterexamples and witnesses -/

/-- A file whose first transcoder call raises an unexpected exception
(for example `ffmpeg` missing from `PATH`). -/
def c1Bad : Core.FileBehavior :=
  { file := ⟨"/media", "song", ".mp3"⟩, convert := .unexpected "ffmpeg missing",
    demucsSpawn := none, demucsLines := [], demucsExit := 0,
    expectedVocalsExists := true, altVocals := [], mux := .success }

/-- A file whose whole pipeline succeeds. -/
def c1Good : Core.FileBehavior :=
  { file := ⟨"/media", "tune", ".wav"⟩, convert := .success, demucsSpawn := none,
    demucsLines := ["50%"], demucsExit := 0, expectedVocalsExists := true,
    altVocals := [], mux := .success }

/-- A file whose first transcoder call exits non-zero. -/
def c1Cpe : Core.FileBehavior :=
  { file := ⟨"/media", "bad", ".mp3"⟩, convert := .calledProcessError,
    demucsSpawn := none, demucsLines := [], demucsExit := 0,
    expectedVocalsExists := true, altVocals := [], mux := .success }

/-- A legacy-CLI file whose transcoder call raises an unexpected
exception. -/
def c1LegacyBad : Legacy.FileBehavior :=
  { file := ⟨"/media", "song", ".mp3"⟩, convert := .unexpected "boom",
    demucs := .success, expectedVocalsExists := true, altVocals := [],
    mux := .success }

/-- A single-file batch whose transcoder call exits non-zero (used to
evaluate the progress trace concretely). -/
def c3Cpe : Core.FileBehavior :=
  { file := ⟨"/media", "song", ".mp3"⟩, convert := .calledProcessError,
    demucsSpawn := none, demucsLines := [], demucsExit := 0,
    expectedVocalsExists := true, altVocals := [], mux := .success }

/-- A file whose expected vocals path is absent but two alternate model
directories contain a match. -/
def c6Alt : Core.FileBehavior :=
  { file := ⟨"/media", "song", ".mp3"⟩, convert := .success,
    demucsSpawn := none, demucsLines := [], demucsExit := 0,
    expectedVocalsExists := false,
    altVocals := ["/tmp/demucs/mdx/song/vocals.wav", "/tmp/demucs/other/song/vocals.wav"],
    mux := .success }

/-- A file whose vocals output cannot be found anywhere. -/
def c6None : Core.FileBehavior :=
  { file := ⟨"/media", "song", ".mp3"⟩, convert := .success,
    demucsSpawn := none, demucsLines := [], demucsExit := 0,
    expectedVocalsExists := false, altVocals := [], mux := .success }

/-- A single-file batch failing with a nonzero transcoder exit. -/
def c10Cpe : Core.FileBehavior :=
  { file := ⟨"/media", "song", ".mp3"⟩, convert := .calledProcessError,
    demucsSpawn := none, demucsLines := [], demucsExit := 0,
    expectedVocalsExists := true, altVocals := [], mux := .success }

/-- A completed web task whose result is ready for download. -/
def c8Task : Webapp.TaskState :=
  Webapp.run_task (Webapp.initTask "t1" "/work/t1" "song.mp3" "htdemucs")
    [⟨"demucs", 0.5, some "Demucs 50%"⟩]
    (.returned [⟨"/work/t1/uploads/song.mp3", "/work/t1/output/song_vocals.mp3", "song"⟩])

/-- A registry holding exactly the completed task `c8Task`. -/
def c8Reg : Webapp.Registry := [("t1", c8Task)]

/-- A completed web task used for the finalization scenario. -/
def c9Task : Webapp.TaskState :=
  Webapp.run_task (Webapp.initTask "t2" "/work/t2" "clip.mp4" "htdemucs")
    [⟨"mux", 0.95, some "Writing clip.mp4"⟩]
    (.returned [⟨"/work/t2/uploads/clip.mp4", "/work/t2/output/clip_vocals.mp4", "clip"⟩])

/-- A registry holding exactly the completed task `c9Task`. -/
def c9Reg : Webapp.Registry := [("t2", c9Task)]

/-! ## Helper lemmas -/

namespace Core

theorem clamp01_nonneg (q : ℚ) : 0 ≤ clamp01 q := le_max_left 0 _

theorem clamp01_le_one (q : ℚ) : clamp01 q ≤ 1 :=
  max_le (by norm_num) (min_le_left 1 q)

theorem clamp01_mono {a b : ℚ} (h : a ≤ b) : clamp01 a ≤ clamp01 b :=
  max_le_max le_rfl (min_le_min le_rfl h)

theorem emitFraction_mono {start span a b : ℚ} (hspan : 0 ≤ span) (h : a ≤ b) :
    emitFraction start span a ≤ emitFraction start span b :=
  clamp01_mono (add_le_add_left (mul_le_mul_of_nonneg_left h hspan) start)

theorem demucsFraction_bounds (p : Nat) :
    (0.22 : ℚ) ≤ demucsFraction p ∧ demucsFraction p ≤ 0.82 := by
  have h0 : (0 : ℚ) ≤ min (p : ℚ) 100 := le_min (by positivity) (by norm_num)
  have h100 : min (p : ℚ) 100 ≤ 100 := min_le_right _ _
  unfold demucsFraction
  constructor
  · linarith
  · linarith

theorem demucsFraction_mono {p q : Nat} (h : p ≤ q) :
    demucsFraction p ≤ demucsFraction q := by
  have hm : min (p : ℚ) 100 ≤ min (q : ℚ) 100 :=
    min_le_min (by exact_mod_cast h) le_rfl
  unfold demucsFraction
  linarith

theorem demucsStreamRaw_stage {fileName : String} {ls : List String} {r : RawEvent}
    (h : r ∈ demucsStreamRaw fileName ls) : r.stage = "demucs" := by
  unfold demucsStreamRaw at h
  rw [List.mem_filterMap] at h
  obtain ⟨line, _, hline⟩ := h
  cases hs : searchPercent line.data with
  | none => rw [hs] at hline; cases hline
  | some n =>
    rw [hs] at hline
    cases hline
    rfl

theorem option_toList_length_le (o : Option ResultEntry) : o.toList.length ≤ 1 := by
  cases o <;> simp [Option.toList]

theorem processFileRaw_escaped_none {temp output model : String} {span : ℚ}
    {b : FileBehavior} (hb : b.noUnexpected = true) :
    (processFileRaw temp output model span b).escaped = none := by
  unfold FileBehavior.noUnexpected at hb
  simp only [Bool.and_eq_true] at hb
  unfold processFileRaw
  repeat' split
  all_goals first
    | rfl
    | (cases hv : b.altVocals.head? <;> rfl)
    | simp_all

theorem processFileRaw_error_frac {temp output model : String} {span : ℚ}
    {b : FileBehavior} {r : RawEvent}
    (h : r ∈ (processFileRaw temp output model span b).raws)
    (hs : r.stage = "error") : r.frac = span := by
  unfold processFileRaw at h
  repeat' split at h
  all_goals try (cases hv : b.altVocals.head? <;> rw [hv] at h)
  all_goals
    simp only [List.mem_append, List.mem_cons, List.not_mem_nil, or_false, false_or] at h
  all_goals repeat' rcases h with h | h
  all_goals try rfl
  all_goals try (simp at hs)
  all_goals exact absurd ((demucsStreamRaw_stage h).symm.trans hs) (by decide)

theorem mem_fileEvents_form {temp output model : String} {n index : Nat}
    {b : FileBehavior} {e : Event}
    (he : e ∈ fileEvents temp output model n index b) :
    ∃ sf, e.fraction = emitFraction ((index : ℚ) / (n : ℚ)) (1 / (n : ℚ)) sf := by
  unfold fileEvents at he
  rw [List.mem_map] at he
  obtain ⟨r, _, hr⟩ := he
  exact ⟨r.frac, by rw [← hr]⟩

theorem errorEvent_mem_of_convert_cpe {temp output model : String} {n index : Nat}
    {b : FileBehavior} (hc : b.convert = .calledProcessError) :
    Event.mk "error" (emitFraction ((index : ℚ) / (n : ℚ)) (1 / (n : ℚ)) (1 / (n : ℚ)))
        (some ("Processing failed for " ++ b.file.name)) ∈
      fileEvents temp output model n index b := by
  unfold fileEvents processFileRaw
  rw [hc]
  exact List.mem_map.mpr
    ⟨⟨"error", 1 / (n : ℚ), "Processing failed for " ++ b.file.name⟩,
      List.mem_cons_of_mem _ (List.mem_cons_self _ _), rfl⟩

theorem result_none_of_convert_cpe {temp output model : String} {span : ℚ}
    {b : FileBehavior} (hc : b.convert = .calledProcessError) :
    (processFileRaw temp output model span b).result = none ∧
      (processFileRaw temp output model span b).escaped = none := by
  unfold processFileRaw
  rw [hc]
  exact ⟨rfl, rfl⟩

theorem mem_go_events {temp output model : String} {n : Nat} {e : Event} :
    ∀ (files : List FileBehavior) (index : Nat),
      e ∈ (processFilesGo temp output model n index files).1 →
      ∃ j b, j < index + files.length ∧ e ∈ fileEvents temp output model n j b
  | [], index => by
    intro h
    simp [processFilesGo] at h
  | b :: rest, index => by
    intro h
    unfold processFilesGo at h
    dsimp only at h
    rcases hesc : (processFileRaw temp output model (1 / (n : ℚ)) b).escaped with _ | exc <;>
      rw [hesc] at h <;> dsimp only at h
    · rcases hgo : processFilesGo temp output model n (index + 1) rest with ⟨evs', out, procs'⟩
      rw [hgo] at h
      rcases out with results | exc <;> dsimp only at h <;> rw [List.mem_append] at h <;>
        rcases h with h | h
      · exact ⟨index, b, by simp, h⟩
      · obtain ⟨j, b', hj, hb'⟩ := mem_go_events rest (index + 1) (by rw [hgo]; exact h)
        exact ⟨j, b', by simpa [Nat.add_assoc, Nat.add_comm 1 rest.length] using hj, hb'⟩
      · exact ⟨index, b, by simp, h⟩
      · obtain ⟨j, b', hj, hb'⟩ := mem_go_events rest (index + 1) (by rw [hgo]; exact h)
        exact ⟨j, b', by simpa [Nat.add_assoc, Nat.add_comm 1 rest.length] using hj, hb'⟩
    · exact ⟨index, b, by simp, h⟩

theorem go_ok_of_noUnexpected {temp output model : String} {n : Nat} :
    ∀ (files : List FileBehavior) (index : Nat),
      (∀ b ∈ files, b.noUnexpected = true) →
      ∃ results, (processFilesGo temp output model n index files).2.1 = .ok results ∧
        results.length ≤ files.length
  | [], _, _ => ⟨[], rfl, by simp⟩
  | b :: rest, index, h => by
    have hesc := @processFileRaw_escaped_none temp output model (1 / (n : ℚ)) b
      (h b (List.mem_cons_self b rest))
    obtain ⟨res, hres, hlen⟩ :=
      go_ok_of_noUnexpected rest (index + 1) (fun b' hb' => h b' (List.mem_cons_of_mem b hb'))
    unfold processFilesGo
    dsimp only
    rw [hesc]
    dsimp only
    rcases hgo : processFilesGo temp output model n (index + 1) rest with ⟨evs', out, procs'⟩
    rw [hgo] at hres
    dsimp only at hres
    subst hres
    refine ⟨(processFileRaw temp output model (1 / (n : ℚ)) b).result.toList ++ res, rfl, ?_⟩
    have h1 := option_toList_length_le (processFileRaw temp output model (1 / (n : ℚ)) b).result
    simp only [List.length_append, List.length_cons]
    omega

end Core

namespace Webapp

theorem applyUpdate_outputPath (t : TaskState) (e : Event) :
    (applyUpdate t e).outputPath = t.outputPath := rfl

theorem foldl_applyUpdate_outputPath (updates : List Event) :
    ∀ t : TaskState, (updates.foldl applyUpdate t).outputPath = t.outputPath := by
  induction updates with
  | nil => intro t; rfl
  | cons e rest ih =>
    intro t
    rw [List.foldl_cons, ih (applyUpdate t e), applyUpdate_outputPath]

theorem initTask_outputPath (tid workDir savedName model : String) :
    (initTask tid workDir savedName model).outputPath = none := rfl

/-- Registry invariant of the web layer: a task only carries a published
output path once its background run has completed, because `_run_task`
sets `output_path` and `status = "completed"` in the same locked block
and applies progress updates strictly before that. -/
theorem reachable_completed_of_outputPath {t : TaskState} (h : ReachableTask t)
    (ho : t.outputPath.isSome = true) : t.status = "completed" := by
  cases h with
  | mid tid workDir savedName model updates =>
    rw [foldl_applyUpdate_outputPath, initTask_outputPath] at ho
    cases ho
  | finished tid workDir savedName model updates r =>
    cases r with
    | raised msg =>
      unfold run_task finishTask at ho
      dsimp only at ho
      rw [foldl_applyUpdate_outputPath, initTask_outputPath] at ho
      cases ho
    | returned rs =>
      cases rs with
      | nil =>
        unfold run_task finishTask at ho
        dsimp only at ho
        rw [foldl_applyUpdate_outputPath, initTask_outputPath] at ho
        cases ho
      | cons r0 rest => rfl

theorem lookupTask_mem {reg : Registry} {tid : String} {t : TaskState}
    (h : lookupTask reg tid = some t) : (tid, t) ∈ reg := by
  unfold lookupTask at h
  cases hf : reg.find? (fun p => p.1 = tid) with
  | none => rw [hf] at h; cases h
  | some p =>
    rw [hf] at h
    cases h
    have hmem := List.mem_of_find?_eq_some hf
    have hp := List.find?_some hf
    simp only [decide_eq_true_eq] at hp
    rcases p with ⟨k, v⟩
    cases hp
    exact hmem

theorem lookupTask_removeTask_self (reg : Registry) (tid : String) :
    lookupTask (removeTask reg tid) tid = none := by
  unfold lookupTask removeTask
  induction reg with
  | nil => rfl
  | cons p rest ih =>
    by_cases hp : p.1 = tid
    · simpa [List.filter, hp] using ih
    · simpa [List.filter, List.find?, hp] using ih

end Webapp

/-! ## Claim theorems -/

/-- C5: for the empty input list, `process_files` returns an empty result
list with no side effects: no progress-callback invocation, no directory
created, and no subprocess attempted. -/
theorem process_files_empty_no_side_effects (model temp_dir output_dir : String) :
    Core.process_files [] model temp_dir output_dir =
      ⟨[], Core.BatchOutcome.ok [], [], 0⟩ := rfl

/-- C2 (code-bug evidence): the input classifier of the CLI `main`
(`salsa-milk.py` lines 231–236) keeps a non-URI input verbatim in the
local-file list: it takes no filesystem into account, so a nonexistent
path is neither dropped nor logged, and the path is not resolved to an
absolute path — contradicting the repository's own test
`test_cli_handles_missing_files`, which expects a missing local file to
be dropped before processing. -/
theorem classifier_keeps_missing_local_path :
    Legacy.classifyInputs ["/nonexistent/missing.mp3"] =
      ([], ["/nonexistent/missing.mp3"]) := by decide

/-- C7: the output extension and remux codec are determined by the input
extension: a video-classified input always yields an `mp4` output; an
`.mp3` input yields an `mp3` output with codec `libmp3lame`; an audio
input whose extension is outside the allow-list yields a `wav` output
with codec `copy`. -/
theorem output_extension_codec_selection :
    (∀ f : InputFile, f.hasVideo = true → (Core.outputChoice f).1 = "mp4") ∧
    (∀ f : InputFile, f.ext = ".mp3" →
      Core.outputChoice f = ("mp3", "libmp3lame")) ∧
    (∀ f : InputFile, f.hasVideo = false →
      Core.allowedExts.contains (Core.lstripDots (strToLower f.ext)) = false →
      Core.outputChoice f = ("wav", "copy")) := by
  refine ⟨?_, ?_, ?_⟩
  · intro f h
    simp [Core.outputChoice, h]
  · intro f h
    obtain ⟨d, s, e⟩ := f
    simp only at h
    subst h
    rfl
  · intro f h1 h2
    have h2' : Core.lstripDots (strToLower f.ext) ∉ Core.allowedExts := by
      simpa using h2
    simp [Core.outputChoice, Core.audioCodec, h1, h2']

/-- C7 witness: the three cases evaluated at `.mp4`, `.mp3` and `.flac`
inputs. -/
theorem output_extension_codec_selection_witness :
    (Core.outputChoice ⟨"/media", "clip", ".mp4"⟩).1 = "mp4" ∧
    Core.outputChoice ⟨"/media", "song", ".mp3"⟩ = ("mp3", "libmp3lame") ∧
    Core.outputChoice ⟨"/media", "track", ".flac"⟩ = ("wav", "copy") :=
  ⟨output_extension_codec_selection.1 ⟨"/media", "clip", ".mp4"⟩ (by decide),
   output_extension_codec_selection.2.1 ⟨"/media", "song", ".mp3"⟩ rfl,
   output_extension_codec_selection.2.2 ⟨"/media", "track", ".flac"⟩ (by decide) (by decide)⟩

/-- C4: a diagnostic line matching the percentage pattern (one to three
digits before `%`) is clamped to at most 100 and mapped to
`0.22 + 0.6·(percent/100)`, which always lies in `[0.22, 0.82]`; the
mapping is monotone, also after the per-file emit arithmetic, and a
stream carrying a smaller then a larger percentage yields two emissions
with the second at least the first. -/
theorem percent_mapping_bounds_monotone (line line2 : String) (p q : Nat)
    (hp : Core.searchPercent line.data = some p)
    (hq : Core.searchPercent line2.data = some q)
    (hpq : p ≤ q) (fileName : String) (n index : Nat) :
    Core.demucsFraction p = 0.22 + 0.6 * (((min p 100 : Nat) : ℚ) / 100) ∧
    ((0.22 : ℚ) ≤ Core.demucsFraction p ∧ Core.demucsFraction p ≤ 0.82) ∧
    Core.demucsFraction p ≤ Core.demucsFraction q ∧
    Core.emitFraction ((index : ℚ) / (n : ℚ)) (1 / (n : ℚ)) (Core.demucsFraction p) ≤
      Core.emitFraction ((index : ℚ) / (n : ℚ)) (1 / (n : ℚ)) (Core.demucsFraction q) ∧
    (Core.demucsStreamRaw fileName [line, line2]).map Core.RawEvent.frac =
      [Core.demucsFraction p, Core.demucsFraction q] := by
  have hne1 : (line == "") = false := by
    cases hbe : line == ""
    · rfl
    · exfalso
      have h0 : line = "" := eq_of_beq hbe
      subst h0
      have hnone : Core.searchPercent ("" : String).data = none := rfl
      rw [hnone] at hp
      cases hp
  have hne2 : (line2 == "") = false := by
    cases hbe : line2 == ""
    · rfl
    · exfalso
      have h0 : line2 = "" := eq_of_beq hbe
      subst h0
      have hnone : Core.searchPercent ("" : String).data = none := rfl
      rw [hnone] at hq
      cases hq
  refine ⟨?_, Core.demucsFraction_bounds p, Core.demucsFraction_mono hpq, ?_, ?_⟩
  · unfold Core.demucsFraction
    rw [Nat.cast_min]
    norm_num
  · exact Core.emitFraction_mono (one_div_nonneg.mpr (Nat.cast_nonneg n))
      (Core.demucsFraction_mono hpq)
  · simp [Core.demucsStreamRaw, List.takeWhile, hne1, hne2, hp, hq]

/-- C4 witness: the spec's own example, a `10%` line followed by a
`100%` line. -/
theorem percent_mapping_bounds_monotone_witness :
    Core.searchPercent "10%".data = some 10 ∧
    ((0.22 : ℚ) ≤ Core.demucsFraction 10 ∧ Core.demucsFraction 10 ≤ 0.82) ∧
    Core.demucsFraction 10 ≤ Core.demucsFraction 100 ∧
    (Core.demucsStreamRaw "song.mp3" ["10%", "100%"]).map Core.RawEvent.frac =
      [Core.demucsFraction 10, Core.demucsFraction 100] := by
  have h := percent_mapping_bounds_monotone "10%" "100%" 10 100 (by decide) (by decide)
    (by decide) "song.mp3" 1 0
  exact ⟨by decide, h.2.1, h.2.2.1, h.2.2.2.2⟩

/-- C10 (implicit): the `error` progress event always passes the
per-file span `1/N` as its stage fraction, so its emitted overall
fraction is `clamp(index/N + 1/N²)`; for a single-file batch that value
is exactly `1.0`, equal by value to full completion. -/
theorem error_event_span_fraction (temp_dir output_dir model : String)
    (n index : Nat) (b : Core.FileBehavior)
    (hc : b.convert = RunOutcome.calledProcessError) :
    (∀ (b' : Core.FileBehavior) (r : Core.RawEvent),
        r ∈ (Core.processFileRaw temp_dir output_dir model (1 / (n : ℚ)) b').raws →
        r.stage = "error" → r.frac = 1 / (n : ℚ)) ∧
    Event.mk "error" (Core.emitFraction ((index : ℚ) / (n : ℚ)) (1 / (n : ℚ)) (1 / (n : ℚ)))
        (some ("Processing failed for " ++ b.file.name)) ∈
      Core.fileEvents temp_dir output_dir model n index b ∧
    Core.emitFraction ((index : ℚ) / (n : ℚ)) (1 / (n : ℚ)) (1 / (n : ℚ)) =
      Core.clamp01 ((index : ℚ) / (n : ℚ) + 1 / ((n : ℚ)) ^ 2) ∧
    (n = 1 → index = 0 →
      Core.emitFraction ((index : ℚ) / (n : ℚ)) (1 / (n : ℚ)) (1 / (n : ℚ)) = 1) := by
  refine ⟨?_, Core.errorEvent_mem_of_convert_cpe hc, ?_, ?_⟩
  · intro b' r hr hst
    exact Core.processFileRaw_error_frac hr hst
  · unfold Core.emitFraction
    have hsq : (1 / (n : ℚ)) * (1 / (n : ℚ)) = 1 / ((n : ℚ)) ^ 2 := by ring
    rw [hsq]
  · intro h1 h0
    subst h1
    subst h0
    norm_num [Core.emitFraction, Core.clamp01]

/-- C10 witness: a single-file batch whose transcoder exits non-zero
reports the error event at overall fraction `1.0`. -/
theorem error_event_span_fraction_witness :
    Event.mk "error" 1 (some "Processing failed for song.mp3") ∈
      Core.fileEvents "/tmp" "/output" "htdemucs" 1 0 c10Cpe := by
  have h := error_event_span_fraction "/tmp" "/output" "htdemucs" 1 0 c10Cpe rfl
  have hval := h.2.2.2 rfl rfl
  have hmem := h.2.1
  rw [hval] at hmem
  exact hmem

/-- C6: after a successful separation, when the expected vocals path is
absent, the first path found in another model subdirectory is the one
handed to the remux step; when no path matches anywhere, the file is
skipped without raising and contributes zero results. -/
theorem vocals_fallback_or_skip (temp_dir output_dir model : String) (span : ℚ)
    (b : Core.FileBehavior)
    (hconv : b.convert = RunOutcome.success)
    (hspawn : b.demucsSpawn = none)
    (hexit : b.demucsExit = 0)
    (hexp : b.expectedVocalsExists = false) :
    (∀ p rest, b.altVocals = p :: rest →
      (Core.processFileRaw temp_dir output_dir model span b).vocalsUsed = some p) ∧
    (b.altVocals = [] →
      (Core.processFileRaw temp_dir output_dir model span b).result = none ∧
      (Core.processFileRaw temp_dir output_dir model span b).escaped = none ∧
      (Core.processFileRaw temp_dir output_dir model span b).vocalsUsed = none) := by
  constructor
  · intro p rest halt
    unfold Core.processFileRaw
    rw [hconv, hspawn, hexit, hexp, halt]
    cases hm : b.mux <;> simp [hm]
  · intro halt
    unfold Core.processFileRaw
    rw [hconv, hspawn, hexit, hexp, halt]
    simp

/-- C6 witness: a file with two alternate matches uses the first one; a
file with none is skipped with zero results and no exception. -/
theorem vocals_fallback_or_skip_witness :
    (Core.processFileRaw "/tmp" "/output" "htdemucs" 1 c6Alt).vocalsUsed =
      some "/tmp/demucs/mdx/song/vocals.wav" ∧
    (Core.processFileRaw "/tmp" "/output" "htdemucs" 1 c6None).result = none ∧
    (Core.processFileRaw "/tmp" "/output" "htdemucs" 1 c6None).escaped = none :=
  ⟨(vocals_fallback_or_skip "/tmp" "/output" "htdemucs" 1 c6Alt rfl rfl rfl rfl).1
      "/tmp/demucs/mdx/song/vocals.wav" ["/tmp/demucs/other/song/vocals.wav"] rfl,
   ((vocals_fallback_or_skip "/tmp" "/output" "htdemucs" 1 c6None rfl rfl rfl rfl).2 rfl).1,
   ((vocals_fallback_or_skip "/tmp" "/output" "htdemucs" 1 c6None rfl rfl rfl rfl).2 rfl).2.1⟩

/-- C3: every fraction handed to the progress callback lies in `[0, 1]`,
and every per-file event's fraction is exactly the clamp of
`index/N + (1/N)·stage_fraction` for its file's index: the per-file
share is `1/N` and the file at position `index` starts at offset
`index/N`. -/
theorem progress_fraction_clamped (input_files : List Core.FileBehavior)
    (model temp_dir output_dir : String) (e : Event)
    (he : e ∈ (Core.process_files input_files model temp_dir output_dir).events) :
    (0 ≤ e.fraction ∧ e.fraction ≤ 1) ∧
    (e.stage ≠ "complete" →
      ∃ index sf, index < input_files.length ∧
        e.fraction = Core.clamp01 ((index : ℚ) / (input_files.length : ℚ) +
          1 / (input_files.length : ℚ) * sf)) := by
  have key : e ∈ (Core.processFilesGo temp_dir output_dir model
      input_files.length 0 input_files).1 →
      (0 ≤ e.fraction ∧ e.fraction ≤ 1) ∧
      (e.stage ≠ "complete" →
        ∃ index sf, index < input_files.length ∧
          e.fraction = Core.clamp01 ((index : ℚ) / (input_files.length : ℚ) +
            1 / (input_files.length : ℚ) * sf)) := by
    intro he'
    obtain ⟨j, b, hj, hb⟩ := Core.mem_go_events input_files 0 he'
    obtain ⟨sf, hsf⟩ := Core.mem_fileEvents_form hb
    refine ⟨⟨?_, ?_⟩, ?_⟩
    · rw [hsf]; exact Core.clamp01_nonneg _
    · rw [hsf]; exact Core.clamp01_le_one _
    · intro _
      exact ⟨j, sf, by simpa using hj, hsf⟩
  unfold Core.process_files at he
  by_cases hempty : input_files.isEmpty
  · rw [if_pos hempty] at he
    simp at he
  · rw [if_neg hempty] at he
    dsimp only at he
    rcases hgo : Core.processFilesGo temp_dir output_dir model
        input_files.length 0 input_files with ⟨evs, out, procs⟩
    rw [hgo] at he
    rcases out with results | exc <;> dsimp only at he
    · rw [List.mem_append] at he
      rcases he with he | he
      · exact key (by rw [hgo]; exact he)
      · rw [List.mem_singleton] at he
        subst he
        refine ⟨⟨by norm_num, by norm_num⟩, ?_⟩
        intro hne
        exact absurd rfl hne
    · exact key (by rw [hgo]; exact he)

/-- C3 witness: the `prepare` event of a one-file batch carries fraction
`0.02 = clamp(0/1 + (1/1)·0.02)`, inside `[0, 1]`. -/
theorem progress_fraction_clamped_witness :
    (0 ≤ (Event.mk "prepare" (Core.emitFraction ((0 : Nat) / ((1 : Nat) : ℚ))
        (1 / ((1 : Nat) : ℚ)) 0.02) (some "Preparing song.mp3")).fraction ∧
      (Event.mk "prepare" (Core.emitFraction ((0 : Nat) / ((1 : Nat) : ℚ))
        (1 / ((1 : Nat) : ℚ)) 0.02) (some "Preparing song.mp3")).fraction ≤ 1) := by
  have hmem : Event.mk "prepare" (Core.emitFraction ((0 : Nat) / ((1 : Nat) : ℚ))
      (1 / ((1 : Nat) : ℚ)) 0.02) (some "Preparing song.mp3") ∈
      (Core.process_files [c3Cpe] "htdemucs" "/tmp" "/output").events := by
    simp [Core.process_files, Core.processFilesGo, Core.fileEvents,
      Core.processFileRaw, c3Cpe, InputFile.name]
  exact (progress_fraction_clamped [c3Cpe] "htdemucs" "/tmp" "/output" _ hmem).1

/-- C1 counterexample: `salsa_milk_core.process_files` guards the
per-file pipeline only with `except subprocess.CalledProcessError`, so an
unexpected exception (here: the transcoder binary missing) propagates out
of the batch instead of being treated as a per-file failure — the second
file is never reached. -/
theorem process_files_raises_on_unexpected :
    (Core.process_files [c1Bad, c1Good] "htdemucs" "/tmp" "/output").outcome =
      Core.BatchOutcome.raised (PyExc.other "ffmpeg missing") := rfl

/-- C1 (amended): in `salsa_milk_core.process_files`, only the expected
nonzero-exit exception (`CalledProcessError`) is caught per file: such a
failure is logged, emits an error event, contributes no result, and the
batch proceeds, so when no other exception occurs the function returns
normally with at most one result per file; the legacy CLI's
`process_files` (`salsa-milk.py`) additionally catches every exception
broadly, so there a failing file of any kind only drops that file's
result and the batch never raises. -/
theorem per_file_failure_isolation
    (input_files : List Core.FileBehavior) (model temp_dir output_dir : String)
    (h : ∀ b ∈ input_files, b.noUnexpected = true)
    (lmodel : String) (lbad : Legacy.FileBehavior) (lrest : List Legacy.FileBehavior)
    (hlbad : Legacy.processFile lmodel lbad = none) :
    (∃ results, (Core.process_files input_files model temp_dir output_dir).outcome =
        Core.BatchOutcome.ok results ∧ results.length ≤ input_files.length) ∧
    (∀ (n index : Nat) (b : Core.FileBehavior),
        b.convert = RunOutcome.calledProcessError →
        (Core.processFileRaw temp_dir output_dir model (1 / (n : ℚ)) b).escaped = none ∧
        (Core.processFileRaw temp_dir output_dir model (1 / (n : ℚ)) b).result = none ∧
        Event.mk "error"
            (Core.emitFraction ((index : ℚ) / (n : ℚ)) (1 / (n : ℚ)) (1 / (n : ℚ)))
            (some ("Processing failed for " ++ b.file.name)) ∈
          Core.fileEvents temp_dir output_dir model n index b) ∧
    Legacy.process_files lmodel (lbad :: lrest) = Legacy.process_files lmodel lrest := by
  refine ⟨?_, ?_, ?_⟩
  · unfold Core.process_files
    by_cases hempty : input_files.isEmpty
    · rw [if_pos hempty]
      exact ⟨[], rfl, by simp⟩
    · rw [if_neg hempty]
      dsimp only
      obtain ⟨res, hres, hlen⟩ :=
        @Core.go_ok_of_noUnexpected temp_dir output_dir model input_files.length
          input_files 0 h
      rcases hgo : Core.processFilesGo temp_dir output_dir model
          input_files.length 0 input_files with ⟨evs, out, procs⟩
      rw [hgo] at hres
      dsimp only at hres
      subst hres
      exact ⟨res, rfl, hlen⟩
  · intro n index b hc
    exact ⟨(Core.result_none_of_convert_cpe hc).2, (Core.result_none_of_convert_cpe hc).1,
      Core.errorEvent_mem_of_convert_cpe hc⟩
  · simp [Legacy.process_files, List.filterMap_cons, hlbad]

/-- C1 witness: a batch with one nonzero-exit failure and one success
returns normally with at most two results, and a legacy-CLI batch whose
only file fails with an unexpected exception returns the empty list
without raising. -/
theorem per_file_failure_isolation_witness :
    (∃ results, (Core.process_files [c1Cpe, c1Good] "htdemucs" "/tmp" "/output").outcome =
        Core.BatchOutcome.ok results ∧ results.length ≤ 2) ∧
    Legacy.process_files "htdemucs" [c1LegacyBad] = [] := by
  have h := per_file_failure_isolation [c1Cpe, c1Good] "htdemucs" "/tmp" "/output"
    (by decide) "htdemucs" c1LegacyBad [] rfl
  exact ⟨h.1, h.2.2⟩

/-- C8: for any registry whose tasks are reachable states of the web
layer, the download operation streams the file exactly for a task that
is completed with an existing output file — an unknown identifier, a
task that has not completed (which by the registry invariant has no
published output path), or a missing output file all yield not-found —
and on stream completion the task is removed from the registry and its
working directory deleted. -/
theorem api_download_completed_only (reg : Webapp.Registry)
    (fsExists : String → Bool) (tid : String)
    (hreach : ∀ p ∈ reg, Webapp.ReachableTask p.2) :
    (Webapp.lookupTask reg tid = none →
      Webapp.api_download reg fsExists tid = ⟨.notFound, reg, []⟩) ∧
    (∀ t, Webapp.lookupTask reg tid = some t → t.status ≠ "completed" →
      Webapp.api_download reg fsExists tid = ⟨.notFound, reg, []⟩) ∧
    (∀ t p, Webapp.lookupTask reg tid = some t → t.outputPath = some p →
      fsExists p = false →
      Webapp.api_download reg fsExists tid = ⟨.notFound, reg, []⟩) ∧
    (∀ t p, Webapp.lookupTask reg tid = some t → t.status = "completed" →
      t.outputPath = some p → fsExists p = true →
      Webapp.api_download reg fsExists tid =
        ⟨.file p (Webapp.downloadNameFor t p), Webapp.removeTask reg tid, [t.workDir]⟩) := by
  refine ⟨?_, ?_, ?_, ?_⟩
  · intro hl
    simp [Webapp.api_download, hl]
  · intro t hl hst
    have hre := hreach (tid, t) (Webapp.lookupTask_mem hl)
    have hop : t.outputPath = none := by
      cases ho : t.outputPath with
      | none => rfl
      | some p =>
        exact absurd (Webapp.reachable_completed_of_outputPath hre (by rw [ho]; rfl)) hst
    simp [Webapp.api_download, hl, hop]
  · intro t p hl hop hfs
    simp [Webapp.api_download, hl, hop, hfs]
  · intro t p hl _hst hop hfs
    simp [Webapp.api_download, Webapp.finalize_task, hl, hop, hfs]

/-- C8 witness: a registry holding one completed reachable task streams
its file and finalizes it; the same request on the empty registry is
not-found. -/
theorem api_download_completed_only_witness :
    Webapp.api_download c8Reg (fun _ => true) "t1" =
      ⟨.file "/work/t1/output/song_vocals.mp3"
          (Webapp.downloadNameFor c8Task "/work/t1/output/song_vocals.mp3"),
        Webapp.removeTask c8Reg "t1", [c8Task.workDir]⟩ ∧
    Webapp.api_download ([] : Webapp.Registry) (fun _ => true) "t1" =
      ⟨.notFound, ([] : Webapp.Registry), []⟩ := by
  have hreach : ∀ p ∈ c8Reg, Webapp.ReachableTask p.2 := by
    intro p hp
    simp only [c8Reg, List.mem_singleton] at hp
    subst hp
    exact Webapp.ReachableTask.finished "t1" "/work/t1" "song.mp3" "htdemucs"
      [⟨"demucs", 0.5, some "Demucs 50%"⟩]
      (.returned [⟨"/work/t1/uploads/song.mp3", "/work/t1/output/song_vocals.mp3", "song"⟩])
  have h := api_download_completed_only c8Reg (fun _ => true) "t1" hreach
  refine ⟨h.2.2.2 c8Task "/work/t1/output/song_vocals.mp3" rfl rfl rfl rfl, ?_⟩
  have h0 := api_download_completed_only ([] : Webapp.Registry) (fun _ => true) "t1"
    (by intro p hp; cases hp)
  exact h0.1 rfl

/-- C9: downloading a completed task's result finalizes it: the stream
delivers the file, the task's working directory is deleted, the task
disappears from the registry, and every subsequent progress poll or
download for the same identifier yields not-found. -/
theorem download_finalizes_task (reg : Webapp.Registry)
    (fsExists fsExists2 : String → Bool) (tid : String)
    (t : Webapp.TaskState) (p : String)
    (hl : Webapp.lookupTask reg tid = some t)
    (hop : t.outputPath = some p) (hfs : fsExists p = true) :
    (Webapp.api_download reg fsExists tid).response =
      Webapp.DownloadResponse.file p (Webapp.downloadNameFor t p) ∧
    (Webapp.api_download reg fsExists tid).removedWorkDirs = [t.workDir] ∧
    Webapp.lookupTask (Webapp.api_download reg fsExists tid).registryAfterClose tid =
      none ∧
    Webapp.api_progress (Webapp.api_download reg fsExists tid).registryAfterClose tid =
      Webapp.ProgressResponse.notFound ∧
    (Webapp.api_download (Webapp.api_download reg fsExists tid).registryAfterClose
        fsExists2 tid).response = Webapp.DownloadResponse.notFound := by
  have hdl : Webapp.api_download reg fsExists tid =
      ⟨.file p (Webapp.downloadNameFor t p), Webapp.removeTask reg tid, [t.workDir]⟩ := by
    simp [Webapp.api_download, Webapp.finalize_task, hl, hop, hfs]
  rw [hdl]
  refine ⟨rfl, rfl, Webapp.lookupTask_removeTask_self reg tid, ?_, ?_⟩
  · simp [Webapp.api_progress, Webapp.lookupTask_removeTask_self reg tid]
  · simp [Webapp.api_download, Webapp.lookupTask_removeTask_self reg tid]

/-- C9 witness: after one download of the completed task `c9Task`, the
lookup, a progress poll and a second download all come back not-found,
and the working directory was deleted. -/
theorem download_finalizes_task_witness :
    (Webapp.api_download c9Reg (fun _ => true) "t2").removedWorkDirs = ["/work/t2"] ∧
    Webapp.api_progress
        (Webapp.api_download c9Reg (fun _ => true) "t2").registryAfterClose "t2" =
      Webapp.ProgressResponse.notFound ∧
    (Webapp.api_download
        (Webapp.api_download c9Reg (fun _ => true) "t2").registryAfterClose
        (fun _ => true) "t2").response = Webapp.DownloadResponse.notFound := by
  have h := download_finalizes_task c9Reg (fun _ => true) (fun _ => true) "t2"
    c9Task "/work/t2/output/clip_vocals.mp4" rfl rfl rfl
  exact ⟨h.2.1, h.2.2.2.1, h.2.2.2.2⟩

end SalsaMilk
